import Mathlib

set_option maxHeartbeats 1600000

/-!
Shallow embedding of `src/app.py` (roomie-interview-scheduler).

The repository is a Flask app over SQLite/Postgres.  The embedding models:
 - `parse_iso` (timestamp normalization), including the parts of the Python
   standard library it calls: `str.strip`, `str.replace`, `str.endswith`,
   `datetime.fromisoformat`, `datetime.astimezone(timezone.utc)`,
   `datetime.replace(microsecond=0)`, `datetime.isoformat`.
   `fromisoformat` is modelled on its documented extended-format grammar
   `YYYY-MM-DD[THH:MM[:SS[.f+]][(+|-)HH[:]MM]]`; the `strptime` fallback
   patterns in the source are subsumed by this grammar.  An `OverflowError`
   escaping `astimezone` at the ends of the representable year range is
   modelled as a failed normalization.
 - the persisted state (tables `roommates` and `events`) as lists of records
   in insertion order, with autoincrement counters; a SQL `SELECT` without
   `ORDER BY` is modelled as a filter in table order, and comparison of
   `TEXT` columns as lexicographic string comparison (both backends compare
   these ASCII strings bytewise).
 - the request handlers `add_roommate`, `update_roommate`, `list_events`
   (`query_events`), `create_event` (`find_conflicts`), `update_event`,
   `delete_event`, each as a function from state and request to a result
   together with the state after the request (including any commits made
   before an error response).
-/

namespace RoomieSched

/-- ASCII whitespace characters removed by Python `str.strip()`. -/
def isPyWS (c : Char) : Bool :=
  c == ' ' || c == '\t' || c == '\n' || c == '\r' || c == '\x0b' || c == '\x0c'

/-- Models Python `str.strip()` on a list of characters. -/
def stripWS (l : List Char) : List Char :=
  ((l.dropWhile isPyWS).reverse.dropWhile isPyWS).reverse

/-- Models Python `str.strip()` on a string. -/
def pstrip (s : String) : String := String.mk (stripWS s.data)

/-- Models the Python expression `v or d` for an optional string `v` (absent
or JSON null gives `None`) with default `d`: `None` and `""` are falsy. -/
def pyOrStr (v : Option String) (d : String) : String :=
  match v with
  | none => d
  | some s => if s = "" then d else s

/-- SQL `TEXT` comparison as both backends perform it on these ASCII
strings: bytewise, i.e. the code-point lexicographic order on the character
list (definitionally Lean's `String` order, stated on the data so it
evaluates by kernel reduction). -/
def strLt (a b : String) : Bool := decide (a.data < b.data)

/-- ASCII decimal digit test on the code point. -/
def isDigitChar (c : Char) : Bool := decide (48 ≤ c.toNat ∧ c.toNat ≤ 57)

/-- Read one ASCII digit as its value. -/
def digit? (c : Char) : Option Nat :=
  if 48 ≤ c.toNat ∧ c.toNat ≤ 57 then some (c.toNat - 48) else none

/-- Read exactly two digits. -/
def parse2 : List Char → Option (Nat × List Char)
  | a :: b :: r =>
    match digit? a, digit? b with
    | some x, some y => some (10 * x + y, r)
    | _, _ => none
  | _ => none

/-- Read exactly four digits. -/
def parse4 : List Char → Option (Nat × List Char)
  | a :: b :: c :: d :: r =>
    match digit? a, digit? b, digit? c, digit? d with
    | some x, some y, some z, some w => some (1000 * x + 100 * y + 10 * z + w, r)
    | _, _, _, _ => none
  | _ => none

/-- Consume one expected character. -/
def expect (c : Char) : List Char → Option (List Char)
  | x :: r => if x = c then some r else none
  | [] => none

/-- Proleptic Gregorian leap year, as in Python `datetime`. -/
def isLeap (y : Nat) : Bool := y % 4 == 0 && (y % 100 != 0 || y % 400 == 0)

/-- Days in a month, as validated by Python `datetime`. -/
def daysInMonth (y m : Nat) : Nat :=
  if m = 2 then (if isLeap y then 29 else 28)
  else if m = 4 ∨ m = 6 ∨ m = 9 ∨ m = 11 then 30
  else 31

/-- Parse and validate `YYYY-MM-DD`. -/
def parseDate (l : List Char) : Option (Nat × Nat × Nat × List Char) :=
  match parse4 l with
  | none => none
  | some (y, r1) =>
    match expect '-' r1 with
    | none => none
    | some r2 =>
      match parse2 r2 with
      | none => none
      | some (mo, r3) =>
        match expect '-' r3 with
        | none => none
        | some r4 =>
          match parse2 r4 with
          | none => none
          | some (d, r5) =>
            if 1 ≤ y ∧ 1 ≤ mo ∧ mo ≤ 12 ∧ 1 ≤ d ∧ d ≤ daysInMonth y mo then
              some (y, mo, d, r5)
            else none

/-- Optional `:SS` component of a time. -/
def parseOptSeconds : List Char → Option (Nat × List Char)
  | ':' :: r =>
    match parse2 r with
    | some (s, r1) => some (s, r1)
    | none => none
  | r => some (0, r)

/-- Value in microseconds of a fractional-seconds digit string
(Python keeps the first six digits, right-padded). -/
def fracToMicro (ds : List Char) : Nat :=
  let d6 := ds.take 6
  (d6.foldl (fun a c => a * 10 + (c.toNat - 48)) 0) * 10 ^ (6 - d6.length)

/-- Optional `.digits` fractional-seconds component. -/
def parseOptFrac : List Char → Option (Nat × List Char)
  | '.' :: r =>
    let ds := r.takeWhile isDigitChar
    if ds = [] then none else some (fracToMicro ds, r.dropWhile isDigitChar)
  | r => some (0, r)

/-- Parse and validate `HH:MM[:SS[.f+]]`. -/
def parseTime (l : List Char) : Option (Nat × Nat × Nat × Nat × List Char) :=
  match parse2 l with
  | none => none
  | some (h, r1) =>
    match expect ':' r1 with
    | none => none
    | some r2 =>
      match parse2 r2 with
      | none => none
      | some (mi, r3) =>
        match parseOptSeconds r3 with
        | none => none
        | some (s, r4) =>
          match parseOptFrac r4 with
          | none => none
          | some (mic, r5) =>
            if h ≤ 23 ∧ mi ≤ 59 ∧ s ≤ 59 then some (h, mi, s, mic, r5) else none

/-- Skip the optional colon inside a numeric offset. -/
def skipColon : List Char → List Char
  | ':' :: t => t
  | t => t

/-- Parse a numeric UTC offset `(+|-)HH[:]MM`, in minutes. -/
def parseOffset (l : List Char) : Option (Int × List Char) :=
  match l with
  | c :: r =>
    if c = '+' ∨ c = '-' then
      match parse2 r with
      | some (hh, r1) =>
        match parse2 (skipColon r1) with
        | some (mm, r3) =>
          if hh ≤ 23 ∧ mm ≤ 59 then
            some (if c = '-' then -((hh * 60 + mm : Nat) : Int) else ((hh * 60 + mm : Nat) : Int), r3)
          else none
        | none => none
      | none => none
    else none
  | [] => none

/-- A Python `datetime` value; `tz = none` is a naive value, `tz = some k`
an aware value with a fixed UTC offset of `k` minutes. -/
structure PyDateTime where
  year : Nat
  month : Nat
  day : Nat
  hour : Nat
  minute : Nat
  second : Nat
  microsecond : Nat
  tz : Option Int
deriving DecidableEq

/-- Models `datetime.fromisoformat` on the documented extended-format
grammar (see header note). -/
def fromisoformat (l : List Char) : Option PyDateTime :=
  match parseDate l with
  | none => none
  | some (y, mo, d, r) =>
    match r with
    | [] => some ⟨y, mo, d, 0, 0, 0, 0, none⟩
    | c :: r1 =>
      if c = 'T' then
        match parseTime r1 with
        | none => none
        | some (h, mi, s, mic, r2) =>
          match r2 with
          | [] => some ⟨y, mo, d, h, mi, s, mic, none⟩
          | _ =>
            match parseOffset r2 with
            | some (off, r3) => if r3 = [] then some ⟨y, mo, d, h, mi, s, mic, some off⟩ else none
            | none => none
      else none

/-- Models `dt.replace(microsecond=0)`. -/
def truncMicro (dt : PyDateTime) : PyDateTime := { dt with microsecond := 0 }

/-- Two-digit zero-padded rendering. -/
def pad2 (n : Nat) : List Char := [Nat.digitChar (n / 10), Nat.digitChar (n % 10)]

/-- Four-digit zero-padded rendering. -/
def pad4 (n : Nat) : List Char :=
  [Nat.digitChar (n / 1000), Nat.digitChar (n / 100 % 10),
   Nat.digitChar (n / 10 % 10), Nat.digitChar (n % 10)]

/-- The `YYYY-MM-DDTHH:MM:SS` part of `datetime.isoformat()` (the fractional
part is absent because the source zeroes the microsecond first; for an aware
UTC value `isoformat` additionally appends `+00:00`, which the source
rewrites to `Z`). -/
def renderBase (dt : PyDateTime) : List Char :=
  pad4 dt.year ++ '-' :: (pad2 dt.month ++ '-' :: (pad2 dt.day ++
    'T' :: (pad2 dt.hour ++ ':' :: (pad2 dt.minute ++ ':' :: pad2 dt.second))))

/-- Calendar predecessor of a day. -/
def prevDay (y mo d : Nat) : Nat × Nat × Nat :=
  if 2 ≤ d then (y, mo, d - 1)
  else if 2 ≤ mo then (y, mo - 1, daysInMonth y (mo - 1))
  else (y - 1, 12, 31)

/-- Calendar successor of a day. -/
def nextDay (y mo d : Nat) : Nat × Nat × Nat :=
  if d < daysInMonth y mo then (y, mo, d + 1)
  else if mo < 12 then (y, mo + 1, 1)
  else (y + 1, 1, 1)

/-- Build the UTC result of `astimezone`; fails (modelling `OverflowError`)
outside Python's year range 1..9999. -/
def mkUTC (y mo d : Nat) (rem : Int) (s mic : Nat) : Option PyDateTime :=
  if 1 ≤ y ∧ y ≤ 9999 then
    some ⟨y, mo, d, (rem / 60).toNat, (rem % 60).toNat, s, mic, some 0⟩
  else none

/-- Models `dt.astimezone(timezone.utc)` for an aware `dt` whose offset is
`off` minutes: subtract the offset, shifting the calendar day when the
time-of-day under- or overflows (offsets are under 24 hours). -/
def toUTC (dt : PyDateTime) (off : Int) : Option PyDateTime :=
  let delta : Int := ((dt.hour * 60 + dt.minute : Nat) : Int) - off
  if delta < 0 then
    match prevDay dt.year dt.month dt.day with
    | (y2, m2, d2) => mkUTC y2 m2 d2 (delta + 1440) dt.second dt.microsecond
  else if 1440 ≤ delta then
    match nextDay dt.year dt.month dt.day with
    | (y2, m2, d2) => mkUTC y2 m2 d2 (delta - 1440) dt.second dt.microsecond
  else
    mkUTC dt.year dt.month dt.day delta dt.second dt.microsecond

/-- The string surgery `parse_iso` performs before parsing: strip, replace
every space by `T`, and rewrite a trailing `Z` to `+00:00`; fails on an
empty (after stripping) input. -/
def preprocess (ts : String) : Option (List Char) :=
  let stripped := stripWS ts.data
  if stripped = [] then none
  else
    let s := stripped.map (fun c => if c = ' ' then 'T' else c)
    some (if s.getLast? = some 'Z' then
            s.dropLast ++ ('+' :: '0' :: '0' :: ':' :: '0' :: '0' :: [])
          else s)

/-- The normalization tail of `parse_iso`: aware values are converted to UTC
and rendered with the `Z` shorthand, naive values rendered without an offset
marker; the microsecond is zeroed in both cases. -/
def normalizePy (dt : PyDateTime) : Option String :=
  match dt.tz with
  | some off => (toUTC dt off).map (fun du => String.mk (renderBase (truncMicro du) ++ ['Z']))
  | none => some (String.mk (renderBase (truncMicro dt)))

/-- Models `parse_iso` from `src/app.py`: returns the normalized timestamp
string, or `none` where the source raises. -/
def parse_iso (ts : String) : Option String :=
  (preprocess ts).bind (fun l => (fromisoformat l).bind normalizePy)

/-- `parse_iso` applied to a JSON field that may be absent or null:
`parse_iso(None)` raises the same `ValueError` the callers catch. -/
def parse_iso_opt : Option String → Option String
  | none => none
  | some s => parse_iso s

/-- The component ranges Python `datetime` guarantees for its fields. -/
def Valid (dt : PyDateTime) : Prop :=
  1 ≤ dt.year ∧ dt.year ≤ 9999 ∧ 1 ≤ dt.month ∧ dt.month ≤ 12 ∧
  1 ≤ dt.day ∧ dt.day ≤ daysInMonth dt.year dt.month ∧
  dt.hour ≤ 23 ∧ dt.minute ≤ 59 ∧ dt.second ≤ 59

/-- A row of the `roommates` table. -/
structure Roommate where
  id : Nat
  name : String
  color : String
deriving DecidableEq

/-- A row of the `events` table. -/
structure EventRow where
  id : Nat
  roommate_id : Nat
  title : String
  start : String
  «end» : String
  location : String
  notes : String
deriving DecidableEq

/-- The persisted state: both tables in insertion order, plus the
autoincrement counters. -/
structure DB where
  roommates : List Roommate
  events : List EventRow
  nextRoommateId : Nat
  nextEventId : Nat
deriving DecidableEq

/-- `SELECT id FROM roommates WHERE id=?` finds a row. -/
def hasRoommate (db : DB) (rid : Nat) : Bool :=
  db.roommates.any (fun r => r.id = rid)

/-- Referential integrity guaranteed by the store: every event references an
existing roommate (foreign key with `ON DELETE CASCADE`). -/
def WF (db : DB) : Prop :=
  db.events.all (fun e => hasRoommate db e.roommate_id) = true

instance (db : DB) : Decidable (WF db) := by
  unfold WF
  infer_instance

/-- Models `find_conflicts(start, end, exclude_event_id)`: the SQL is
`SELECT ... FROM events e JOIN roommates r ON r.id = e.roommate_id WHERE
e.start < ? AND e."end" > ? [AND e.id != ?]`, with NO `ORDER BY`; the result
is the table scan in stored row order.  Note the parameters are bound in the
order `(start, end)` of the function arguments. -/
def find_conflicts (db : DB) (start «end» : String)
    (exclude_event_id : Option Nat) : List EventRow :=
  db.events.filter (fun e =>
    hasRoommate db e.roommate_id
    && strLt e.start start
    && strLt «end» e.«end»
    && (match exclude_event_id with
        | some i => decide (e.id ≠ i)
        | none => true))

/-- Models `query_events(start, end)`: optional bounds (Python `if start:`
treats an empty string like an absent bound), half-open overlap filter,
`ORDER BY e.start`. -/
def query_events (db : DB) (start «end» : Option String) : List EventRow :=
  let rows := db.events.filter (fun e =>
    hasRoommate db e.roommate_id
    && (match start with
        | some s => if s = "" then true else strLt s e.«end»
        | none => true)
    && (match «end» with
        | some t => if t = "" then true else strLt e.start t
        | none => true))
  rows.insertionSort (fun a b => a.start ≤ b.start)

instance : IsTotal EventRow (fun e1 e2 => e1.start ≤ e2.start) :=
  ⟨fun a b => le_total a.start b.start⟩

instance : IsTrans EventRow (fun e1 e2 => e1.start ≤ e2.start) :=
  ⟨fun _ _ _ h1 h2 => le_trans h1 h2⟩

/-- Bound handling in `list_events`: an absent or falsy (empty) query
parameter means no bound, otherwise it must normalize. -/
def parseBound : Option String → Option (Option String)
  | none => some none
  | some s =>
    if s = "" then some none
    else
      match parse_iso s with
      | some r => some (some r)
      | none => none

/-- Models the `GET /api/events` handler. -/
def list_events (db : DB) (start «end» : Option String) :
    Except String (List EventRow) :=
  match parseBound start, parseBound «end» with
  | some ps, some pe => .ok (query_events db ps pe)
  | _, _ => .error "invalid start or end ISO datetime"

/-- Outcome of an event mutation: a 400 error, the 409 conflict rejection,
or success carrying the hydrated row and the (non-blocking) conflict list. -/
inductive EvResult where
  | err (msg : String)
  | conflict (conflicts : List EventRow)
  | ok (ev : EventRow) (conflicts : List EventRow)
deriving DecidableEq

/-- JSON body of `POST /api/events`.  `roommate_id` is `none` when absent or
null (`0` is likewise falsy in the source's `if not roommate_id` check); the
string fields are `none` when absent or null; `rejectOnConflict` is the
truthiness of the supplied value. -/
structure CreateInput where
  roommate_id : Option Nat
  title : Option String
  start : Option String
  «end» : Option String
  location : Option String
  notes : Option String
  rejectOnConflict : Bool

/-- Models the `POST /api/events` handler; returns the HTTP outcome and the
state after the request. -/
def create_event (db : DB) (inp : CreateInput) : EvResult × DB :=
  let title := pstrip (pyOrStr inp.title "Interview")
  let location := pstrip (pyOrStr inp.location "")
  let notes := pstrip (pyOrStr inp.notes "")
  match inp.roommate_id with
  | none => (.err "roommate_id is required", db)
  | some rid =>
    if rid = 0 then (.err "roommate_id is required", db)
    else if hasRoommate db rid = false then (.err "invalid roommate_id", db)
    else
      match parse_iso_opt inp.start, parse_iso_opt inp.«end» with
      | some ns, some ne =>
        if strLt ns ne = false then (.err "end must be after start", db)
        else
          let conflicts := find_conflicts db ne ns none
          if ¬ conflicts.isEmpty ∧ inp.rejectOnConflict = true then
            (.conflict conflicts, db)
          else
            let row : EventRow :=
              ⟨db.nextEventId, rid, title, ns, ne, location, notes⟩
            (.ok row conflicts,
             { db with events := db.events ++ [row],
                       nextEventId := db.nextEventId + 1 })
      | _, _ => (.err "invalid start or end ISO datetime", db)

/-- JSON body of `PUT /api/events/{id}`: the outer option is field presence
in the request, the inner option is a JSON null value. -/
structure UpdateInput where
  roommate_id : Option (Option Nat)
  title : Option (Option String)
  start : Option (Option String)
  «end» : Option (Option String)
  location : Option (Option String)
  notes : Option (Option String)
deriving DecidableEq

/-- Staging of the `roommate_id` field of an update request: absent stages
nothing; a null or unknown id is rejected (`SELECT .. WHERE id=NULL` matches
no row). -/
def rmStage (db : DB) (v : Option (Option Nat)) : Except String (Option Nat) :=
  match v with
  | none => .ok none
  | some none => .error "invalid roommate_id"
  | some (some rid) =>
    if hasRoommate db rid then .ok (some rid) else .error "invalid roommate_id"

/-- Staging of a timestamp field of an update request: absent stages
nothing; a present value must normalize. -/
def tsStage (v : Option (Option String)) (msg : String) : Except String (Option String) :=
  match v with
  | none => .ok none
  | some w =>
    match parse_iso_opt w with
    | some ns => .ok (some ns)
    | none => .error msg

/-- The row resulting from applying the staged fields of an update request
to the existing row: each field present in the request replaces the
persisted value, absent fields are left untouched. -/
def applyUpdate (inp : UpdateInput) (ex : EventRow) (rmNew : Option Nat)
    (startNew endNew : Option String) : EventRow :=
  { ex with
    roommate_id := rmNew.getD ex.roommate_id,
    title := (inp.title.map (fun v => pstrip (pyOrStr v "Interview"))).getD ex.title,
    start := startNew.getD ex.start,
    «end» := endNew.getD ex.«end»,
    location := (inp.location.map (fun v => pstrip (pyOrStr v ""))).getD ex.location,
    notes := (inp.notes.map (fun v => pstrip (pyOrStr v ""))).getD ex.notes }

/-- The committed `UPDATE events SET ... WHERE id=?`. -/
def updCommit (db : DB) (eid : Nat) (row : EventRow) : DB :=
  { db with events := db.events.map (fun e => if e.id = eid then row else e) }

/-- Models the `PUT /api/events/{id}` handler; returns the HTTP outcome and
the state after the request. -/
def update_event (db : DB) (eid : Nat) (inp : UpdateInput) : EvResult × DB :=
  if db.events.any (fun e => e.id = eid) = false then (.err "not found", db)
  else
    match rmStage db inp.roommate_id with
    | .error m => (.err m, db)
    | .ok rmNew =>
      match tsStage inp.start "invalid start" with
      | .error m => (.err m, db)
      | .ok startNew =>
        match tsStage inp.«end» "invalid end" with
        | .error m => (.err m, db)
        | .ok endNew =>
          if inp.roommate_id = none ∧ inp.title = none ∧ inp.start = none
             ∧ inp.«end» = none ∧ inp.location = none ∧ inp.notes = none then
            (.err "no fields to update", db)
          else
            match db.events.find? (fun e => e.id = eid) with
            | none => (.err "not found", db)
            | some existing =>
              let new_start := startNew.getD existing.start
              let new_end := endNew.getD existing.«end»
              if strLt new_start new_end = false then
                (.err "end must be after start", db)
              else
                let updated : EventRow := applyUpdate inp existing rmNew startNew endNew
                (.ok updated
                   (find_conflicts (updCommit db eid updated) new_end new_start (some eid)),
                 updCommit db eid updated)

/-- Models the `DELETE /api/events/{id}` handler. -/
def delete_event (db : DB) (eid : Nat) : Except String Unit × DB :=
  let db2 : DB := { db with events := db.events.filter (fun e => decide (e.id ≠ eid)) }
  if db.events.any (fun e => e.id = eid) then (.ok (), db2)
  else (.error "not found", db2)

/-- Outcome of a roommate mutation. -/
inductive RmResult where
  | err (msg : String)
  | ok (r : Roommate)
deriving DecidableEq

/-- Models the `POST /api/roommates` handler. -/
def add_roommate (db : DB) (name color : Option String) : RmResult × DB :=
  let n := pstrip (pyOrStr name "")
  let c := pstrip (pyOrStr color "#3778C2")
  if n = "" then (.err "name is required", db)
  else if db.roommates.any (fun r => r.name = n) then
    (.err "Roommate name must be unique", db)
  else
    let r : Roommate := ⟨db.nextRoommateId, n, c⟩
    (.ok r, { db with roommates := db.roommates ++ [r],
                      nextRoommateId := db.nextRoommateId + 1 })

/-- The trailing re-query of `update_roommate`. -/
def rmFinish (db : DB) (rid : Nat) : RmResult × DB :=
  match db.roommates.find? (fun r => r.id = rid) with
  | some r => (.ok r, db)
  | none => (.err "not found", db)

/-- Set the name of roommate `rid`. -/
def setRmName (db : DB) (rid : Nat) (n : String) : DB :=
  { db with roommates := db.roommates.map (fun r => if r.id = rid then { r with name := n } else r) }

/-- Set the color of roommate `rid`. -/
def setRmColor (db : DB) (rid : Nat) (c : String) : DB :=
  { db with roommates := db.roommates.map (fun r => if r.id = rid then { r with color := c } else r) }

/-- The name part of `update_roommate`: absent name leaves the state alone;
a present name must be non-empty after stripping and not collide with
another roommate (the store's UNIQUE constraint), and is then written and
committed. -/
def nameStage (db : DB) (rid : Nat) (name : Option String) : Except String DB :=
  match name with
  | none => .ok db
  | some raw =>
    let n := pstrip raw
    if n = "" then .error "name cannot be empty"
    else if db.roommates.any (fun r => decide (r.id ≠ rid) && decide (r.name = n)) then
      .error "Roommate name must be unique"
    else .ok (setRmName db rid n)

/-- Models the `PUT /api/roommates/{id}` handler; returns the HTTP outcome
and the state after the request.  Mirrors the source's control flow: a
supplied valid name is written AND COMMITTED before the color field is even
examined, so a later color rejection leaves the name change persisted. -/
def update_roommate (db : DB) (rid : Nat) (name color : Option String) :
    RmResult × DB :=
  if db.roommates.any (fun r => r.id = rid) = false then (.err "not found", db)
  else
    match nameStage db rid name with
    | .error m => (.err m, db)
    | .ok db1 =>
      match color with
      | none => rmFinish db1 rid
      | some raw =>
        let c := pstrip raw
        if c = "" then (.err "color cannot be empty", db1)
        else rmFinish (setRmColor db1 rid c) rid

/-! ### Character and digit lemmas -/

theorem digitChar_toNat : ∀ n, n < 10 → (Nat.digitChar n).toNat = 48 + n := by decide

theorem digitChar_not_ws : ∀ n, n < 10 → isPyWS (Nat.digitChar n) = false := by decide

theorem digitChar_ne_space : ∀ n, n < 10 → Nat.digitChar n ≠ ' ' := by decide

theorem digitChar_ne_Z : ∀ n, n < 10 → Nat.digitChar n ≠ 'Z' := by decide

theorem digitChar_ne_dot : ∀ n, n < 10 → Nat.digitChar n ≠ '.' := by decide

theorem digit?_digitChar (n : Nat) (h : n < 10) : digit? (Nat.digitChar n) = some n := by
  unfold digit?
  rw [digitChar_toNat n h, if_pos (by omega)]
  congr 1
  omega

theorem digit?_le (c : Char) (v : Nat) (h : digit? c = some v) : v ≤ 9 := by
  unfold digit? at h
  split at h
  · next hc => cases h; omega
  · cases h

theorem parse2_pad2 (n : Nat) (h : n ≤ 99) (r : List Char) :
    parse2 (pad2 n ++ r) = some (n, r) := by
  have h1 : n / 10 < 10 := by omega
  have h2 : n % 10 < 10 := by omega
  simp [pad2, parse2, digit?_digitChar _ h1, digit?_digitChar _ h2]
  omega

theorem parse4_pad4 (n : Nat) (h : n ≤ 9999) (r : List Char) :
    parse4 (pad4 n ++ r) = some (n, r) := by
  have h1 : n / 1000 < 10 := by omega
  have h2 : n / 100 % 10 < 10 := by omega
  have h3 : n / 10 % 10 < 10 := by omega
  have h4 : n % 10 < 10 := by omega
  simp [pad4, parse4, digit?_digitChar _ h1, digit?_digitChar _ h2,
        digit?_digitChar _ h3, digit?_digitChar _ h4]
  omega

theorem expect_cons (c : Char) (r : List Char) : expect c (c :: r) = some r := by
  simp [expect]

/-! ### Calendar bounds -/

theorem daysInMonth_le (y m : Nat) : daysInMonth y m ≤ 31 := by
  unfold daysInMonth
  split_ifs <;> omega

theorem daysInMonth_pos (y m : Nat) : 1 ≤ daysInMonth y m := by
  unfold daysInMonth
  split_ifs <;> omega

/-! ### Parsing a rendered timestamp -/

theorem parseDate_render (y mo d : Nat) (rest : List Char)
    (hy1 : 1 ≤ y) (hy2 : y ≤ 9999) (hm1 : 1 ≤ mo) (hm2 : mo ≤ 12)
    (hd1 : 1 ≤ d) (hd2 : d ≤ daysInMonth y mo) :
    parseDate (pad4 y ++ '-' :: (pad2 mo ++ '-' :: (pad2 d ++ rest)))
      = some (y, mo, d, rest) := by
  have hd99 : d ≤ 99 := le_trans hd2 (le_trans (daysInMonth_le y mo) (by omega))
  simp [parseDate, parse4_pad4 y hy2, parse2_pad2 mo (by omega), parse2_pad2 d hd99,
        expect_cons, hy1, hm1, hm2, hd1, hd2]

theorem parseTime_render (h mi s : Nat) (rest : List Char)
    (hh : h ≤ 23) (hmi : mi ≤ 59) (hs : s ≤ 59)
    (hfr : parseOptFrac rest = some (0, rest)) :
    parseTime (pad2 h ++ ':' :: (pad2 mi ++ ':' :: (pad2 s ++ rest)))
      = some (h, mi, s, 0, rest) := by
  simp [parseTime, parse2_pad2 h (by omega), parse2_pad2 mi (by omega), expect_cons,
        parseOptSeconds, parse2_pad2 s (by omega), hfr, hh, hmi, hs]

theorem renderBase_append (dt : PyDateTime) (rest : List Char) :
    renderBase dt ++ rest =
      pad4 dt.year ++ '-' :: (pad2 dt.month ++ '-' :: (pad2 dt.day ++
        'T' :: (pad2 dt.hour ++ ':' :: (pad2 dt.minute ++ ':' :: (pad2 dt.second ++ rest))))) := by
  simp [renderBase, List.append_assoc]

theorem fromiso_render_naive (dt : PyDateTime) (hv : Valid dt) :
    fromisoformat (renderBase dt) =
      some ⟨dt.year, dt.month, dt.day, dt.hour, dt.minute, dt.second, 0, none⟩ := by
  obtain ⟨hy1, hy2, hm1, hm2, hd1, hd2, hh, hmi, hs⟩ := hv
  have h0 : renderBase dt = renderBase dt ++ [] := by simp
  rw [h0, renderBase_append]
  rw [fromisoformat, parseDate_render _ _ _ _ hy1 hy2 hm1 hm2 hd1 hd2]
  have ht : parseTime (pad2 dt.hour ++ ':' :: (pad2 dt.minute ++ ':' :: pad2 dt.second)) =
      some (dt.hour, dt.minute, dt.second, 0, []) := by
    have h1 := parseTime_render dt.hour dt.minute dt.second [] hh hmi hs rfl
    simpa using h1
  simp [ht]

theorem fromiso_render_offset (dt : PyDateTime) (hv : Valid dt) :
    fromisoformat (renderBase dt ++ ('+' :: '0' :: '0' :: ':' :: '0' :: '0' :: [])) =
      some ⟨dt.year, dt.month, dt.day, dt.hour, dt.minute, dt.second, 0, some 0⟩ := by
  obtain ⟨hy1, hy2, hm1, hm2, hd1, hd2, hh, hmi, hs⟩ := hv
  rw [renderBase_append]
  rw [fromisoformat, parseDate_render _ _ _ _ hy1 hy2 hm1 hm2 hd1 hd2]
  have hfr : parseOptFrac ('+' :: '0' :: '0' :: ':' :: '0' :: '0' :: []) =
      some (0, '+' :: '0' :: '0' :: ':' :: '0' :: '0' :: []) := rfl
  simp [parseTime_render _ _ _ _ hh hmi hs hfr]
  rfl

/-! ### Bounds obtained from parsing -/

theorem parse2_le (l : List Char) (n : Nat) (r : List Char)
    (h : parse2 l = some (n, r)) : n ≤ 99 := by
  unfold parse2 at h
  split at h
  · split at h
    · rename_i x y hx hy
      cases h
      have := digit?_le _ x hx
      have := digit?_le _ y hy
      omega
    · cases h
  · cases h

theorem parse4_le (l : List Char) (n : Nat) (r : List Char)
    (h : parse4 l = some (n, r)) : n ≤ 9999 := by
  unfold parse4 at h
  split at h
  · split at h
    · rename_i x y z w hx hy hz hw
      cases h
      have := digit?_le _ x hx
      have := digit?_le _ y hy
      have := digit?_le _ z hz
      have := digit?_le _ w hw
      omega
    · cases h
  · cases h

theorem parseDate_valid (l : List Char) (y mo d : Nat) (r : List Char)
    (h : parseDate l = some (y, mo, d, r)) :
    1 ≤ y ∧ y ≤ 9999 ∧ 1 ≤ mo ∧ mo ≤ 12 ∧ 1 ≤ d ∧ d ≤ daysInMonth y mo := by
  unfold parseDate at h
  split at h
  · cases h
  · rename_i y0 r1 h4
    split at h
    · cases h
    · split at h
      · cases h
      · split at h
        · cases h
        · split at h
          · cases h
          · split at h
            · rename_i hcond
              cases h
              exact ⟨hcond.1, parse4_le l y r1 h4, hcond.2.1, hcond.2.2.1,
                     hcond.2.2.2.1, hcond.2.2.2.2⟩
            · cases h

theorem parseTime_valid (l : List Char) (h mi s mic : Nat) (r : List Char)
    (hp : parseTime l = some (h, mi, s, mic, r)) :
    h ≤ 23 ∧ mi ≤ 59 ∧ s ≤ 59 := by
  unfold parseTime at hp
  split at hp
  · cases hp
  · split at hp
    · cases hp
    · split at hp
      · cases hp
      · split at hp
        · cases hp
        · split at hp
          · cases hp
          · split at hp
            · rename_i hcond
              cases hp
              exact ⟨hcond.1, hcond.2.1, hcond.2.2⟩
            · cases hp

theorem parseOffset_bound (l : List Char) (off : Int) (r : List Char)
    (h : parseOffset l = some (off, r)) : -1439 ≤ off ∧ off ≤ 1439 := by
  unfold parseOffset at h
  split at h
  · split at h
    · split at h
      · split at h
        · split at h
          · rename_i hcond
            cases h
            constructor
            · split <;> omega
            · split <;> omega
          · cases h
        · cases h
      · cases h
    · cases h
  · cases h

theorem fromiso_valid (l : List Char) (dt : PyDateTime)
    (h : fromisoformat l = some dt) :
    Valid dt ∧ ∀ o, dt.tz = some o → -1439 ≤ o ∧ o ≤ 1439 := by
  unfold fromisoformat at h
  split at h
  · cases h
  · rename_i y mo d r hd
    have hdv := parseDate_valid l y mo d r hd
    split at h
    · cases h
      refine ⟨⟨hdv.1, hdv.2.1, hdv.2.2.1, hdv.2.2.2.1, hdv.2.2.2.2.1, hdv.2.2.2.2.2,
        Nat.zero_le _, Nat.zero_le _, Nat.zero_le _⟩, ?_⟩
      intro o ho
      cases ho
    · rename_i c r1
      split at h
      · split at h
        · cases h
        · rename_i hh mi s mic r2 ht
          have htv := parseTime_valid r1 hh mi s mic r2 ht
          split at h
          · cases h
            refine ⟨⟨hdv.1, hdv.2.1, hdv.2.2.1, hdv.2.2.2.1, hdv.2.2.2.2.1,
              hdv.2.2.2.2.2, htv.1, htv.2.1, htv.2.2⟩, ?_⟩
            intro o ho
            cases ho
          · split at h
            · rename_i off r3 hof
              split at h
              · cases h
                have hob := parseOffset_bound _ off r3 hof
                refine ⟨⟨hdv.1, hdv.2.1, hdv.2.2.1, hdv.2.2.2.1, hdv.2.2.2.2.1,
                  hdv.2.2.2.2.2, htv.1, htv.2.1, htv.2.2⟩, ?_⟩
                intro o ho
                cases ho
                exact hob
              · cases h
            · cases h
      · cases h

/-! ### UTC conversion lemmas -/

theorem daysInMonth_12 (y : Nat) : daysInMonth y 12 = 31 := rfl

theorem prevDay_valid (y mo d y2 m2 d2 : Nat)
    (hm1 : 1 ≤ mo) (hm2 : mo ≤ 12) (hd1 : 1 ≤ d) (hd2 : d ≤ daysInMonth y mo)
    (hp : prevDay y mo d = (y2, m2, d2)) :
    1 ≤ m2 ∧ m2 ≤ 12 ∧ 1 ≤ d2 ∧ d2 ≤ daysInMonth y2 m2 := by
  unfold prevDay at hp
  split_ifs at hp with h1 h2
  · cases hp
    exact ⟨hm1, hm2, by omega, by omega⟩
  · cases hp
    exact ⟨by omega, by omega, daysInMonth_pos _ _, le_refl _⟩
  · cases hp
    rw [daysInMonth_12]
    omega

theorem nextDay_valid (y mo d y2 m2 d2 : Nat)
    (hm1 : 1 ≤ mo) (hm2 : mo ≤ 12) (hd1 : 1 ≤ d) (hd2 : d ≤ daysInMonth y mo)
    (hp : nextDay y mo d = (y2, m2, d2)) :
    1 ≤ m2 ∧ m2 ≤ 12 ∧ 1 ≤ d2 ∧ d2 ≤ daysInMonth y2 m2 := by
  unfold nextDay at hp
  split_ifs at hp with h1 h2
  · cases hp
    exact ⟨hm1, hm2, by omega, by omega⟩
  · cases hp
    exact ⟨by omega, by omega, by omega, daysInMonth_pos _ _⟩
  · cases hp
    exact ⟨by omega, by omega, by omega, daysInMonth_pos _ _⟩

theorem toUTC_zero (dt : PyDateTime) (hv : Valid dt) :
    toUTC dt 0 = some ⟨dt.year, dt.month, dt.day, dt.hour, dt.minute, dt.second,
      dt.microsecond, some 0⟩ := by
  obtain ⟨hy1, hy2, hm1, hm2, hd1, hd2, hh, hmi, hs⟩ := hv
  simp only [toUTC]
  rw [if_neg (by omega), if_neg (by omega)]
  simp only [mkUTC]
  rw [if_pos ⟨hy1, hy2⟩]
  simp only [Option.some.injEq, PyDateTime.mk.injEq, true_and, and_true]
  constructor <;> omega

theorem toUTC_valid (dt : PyDateTime) (off : Int) (du : PyDateTime)
    (hv : Valid dt) (ho1 : -1439 ≤ off) (ho2 : off ≤ 1439)
    (h : toUTC dt off = some du) :
    Valid du ∧ du.tz = some 0 := by
  obtain ⟨hy1, hy2, hm1, hm2, hd1, hd2, hh, hmi, hs⟩ := hv
  simp only [toUTC] at h
  by_cases hneg : ((dt.hour * 60 + dt.minute : Nat) : Int) - off < 0
  · rw [if_pos hneg] at h
    rcases hp : prevDay dt.year dt.month dt.day with ⟨y2, m2, d2⟩
    rw [hp] at h
    have hday := prevDay_valid dt.year dt.month dt.day y2 m2 d2 hm1 hm2 hd1 hd2 hp
    unfold mkUTC at h
    split at h
    · rename_i hyr
      cases h
      refine ⟨⟨?_, ?_, ?_, ?_, ?_, ?_, ?_, ?_, ?_⟩, rfl⟩ <;> dsimp only <;> omega
    · cases h
  · rw [if_neg hneg] at h
    by_cases hbig : (1440 : Int) ≤ ((dt.hour * 60 + dt.minute : Nat) : Int) - off
    · rw [if_pos hbig] at h
      rcases hp : nextDay dt.year dt.month dt.day with ⟨y2, m2, d2⟩
      rw [hp] at h
      have hday := nextDay_valid dt.year dt.month dt.day y2 m2 d2 hm1 hm2 hd1 hd2 hp
      unfold mkUTC at h
      split at h
      · rename_i hyr
        cases h
        refine ⟨⟨?_, ?_, ?_, ?_, ?_, ?_, ?_, ?_, ?_⟩, rfl⟩ <;> dsimp only <;> omega
      · cases h
    · rw [if_neg hbig] at h
      unfold mkUTC at h
      split at h
      · rename_i hyr
        cases h
        refine ⟨⟨?_, ?_, ?_, ?_, ?_, ?_, ?_, ?_, ?_⟩, rfl⟩ <;> dsimp only <;> omega
      · cases h

/-! ### Shape of rendered timestamps -/

theorem mem_renderBase (dt : PyDateTime) (hv : Valid dt) (c : Char)
    (hc : c ∈ renderBase dt) :
    (∃ k, k < 10 ∧ c = Nat.digitChar k) ∨ c = '-' ∨ c = ':' ∨ c = 'T' := by
  obtain ⟨hy1, hy2, hm1, hm2, hd1, hd2, hh, hmi, hs⟩ := hv
  have hd99 : dt.day ≤ 99 := le_trans hd2 (le_trans (daysInMonth_le _ _) (by omega))
  simp [renderBase, pad2, pad4] at hc
  rcases hc with rfl|rfl|rfl|rfl|rfl|rfl|rfl|rfl|rfl|rfl|rfl|rfl|rfl|rfl|rfl|rfl|rfl|rfl|rfl <;>
    first
      | exact Or.inr (by simp)
      | (refine Or.inl ⟨_, ?_, rfl⟩; omega)

theorem renderBase_len (dt : PyDateTime) : (renderBase dt).length = 19 := by
  simp [renderBase, pad2, pad4]

theorem renderBase_ne_nil (dt : PyDateTime) : renderBase dt ≠ [] := by
  intro h
  have := renderBase_len dt
  rw [h] at this
  simp at this

theorem head?_renderBase_append (dt : PyDateTime) (rest : List Char) :
    (renderBase dt ++ rest).head? = some (Nat.digitChar (dt.year / 1000)) := by
  simp [renderBase, pad4]

theorem head?_renderBase (dt : PyDateTime) :
    (renderBase dt).head? = some (Nat.digitChar (dt.year / 1000)) := by
  simp [renderBase, pad4]

theorem getLast?_renderBase (dt : PyDateTime) :
    (renderBase dt).getLast? = some (Nat.digitChar (dt.second % 10)) := by
  have h : renderBase dt =
      (pad4 dt.year ++ '-' :: (pad2 dt.month ++ '-' :: (pad2 dt.day ++
        'T' :: (pad2 dt.hour ++ ':' :: (pad2 dt.minute ++
          ':' :: [Nat.digitChar (dt.second / 10)])))))
        ++ [Nat.digitChar (dt.second % 10)] := by
    simp [renderBase, pad2, List.append_assoc]
  rw [h, List.getLast?_concat]

theorem renderBase_no_space (dt : PyDateTime) (hv : Valid dt) :
    ∀ c ∈ renderBase dt, c ≠ ' ' := by
  intro c hc
  rcases mem_renderBase dt hv c hc with ⟨k, hk, rfl⟩ | rfl | rfl | rfl
  · exact digitChar_ne_space k hk
  · decide
  · decide
  · decide

/-! ### The preprocessing step is the identity on rendered timestamps -/

theorem dropWhile_cons_false (p : Char → Bool) (a : Char) (t : List Char)
    (h : p a = false) : (a :: t).dropWhile p = a :: t := by
  simp [List.dropWhile_cons, h]

theorem stripWS_eq_self (l : List Char)
    (h1 : ∀ c, l.head? = some c → isPyWS c = false)
    (h2 : ∀ c, l.getLast? = some c → isPyWS c = false) : stripWS l = l := by
  cases l with
  | nil => rfl
  | cons a t =>
    unfold stripWS
    rw [dropWhile_cons_false isPyWS a t (h1 a rfl)]
    cases hr : (a :: t).reverse with
    | nil => simp at hr
    | cons b s =>
      have hb : (a :: t).getLast? = some b := by
        rw [← List.head?_reverse, hr]
        rfl
      rw [dropWhile_cons_false isPyWS b s (h2 b hb), ← hr, List.reverse_reverse]

theorem map_space_eq_self (l : List Char) (h : ∀ c ∈ l, c ≠ ' ') :
    l.map (fun c => if c = ' ' then 'T' else c) = l := by
  induction l with
  | nil => rfl
  | cons a t ih =>
    simp only [List.map_cons]
    rw [if_neg (h a (by simp))]
    rw [ih (fun c hc => h c (by simp [hc]))]

theorem preprocess_render_naive (dt : PyDateTime) (hv : Valid dt) :
    preprocess (String.mk (renderBase dt)) = some (renderBase dt) := by
  have hy2 : dt.year ≤ 9999 := hv.2.1
  unfold preprocess
  have hdata : (String.mk (renderBase dt)).data = renderBase dt := rfl
  rw [hdata]
  have hstrip : stripWS (renderBase dt) = renderBase dt := by
    refine stripWS_eq_self _ ?_ ?_
    · intro c hc
      rw [head?_renderBase dt] at hc
      cases hc
      exact digitChar_not_ws _ (by omega)
    · intro c hc
      rw [getLast?_renderBase dt] at hc
      cases hc
      exact digitChar_not_ws _ (by omega)
  have hlast : (renderBase dt).getLast? = some (Nat.digitChar (dt.second % 10)) :=
    getLast?_renderBase dt
  have hZ : Nat.digitChar (dt.second % 10) ≠ 'Z' := digitChar_ne_Z _ (by omega)
  simp [hstrip, renderBase_ne_nil dt, map_space_eq_self _ (renderBase_no_space dt hv),
        hlast, hZ]

theorem preprocess_render_z (dt : PyDateTime) (hv : Valid dt) :
    preprocess (String.mk (renderBase dt ++ ['Z'])) =
      some (renderBase dt ++ ('+' :: '0' :: '0' :: ':' :: '0' :: '0' :: [])) := by
  have hy2 : dt.year ≤ 9999 := hv.2.1
  unfold preprocess
  have hdata : (String.mk (renderBase dt ++ ['Z'])).data = renderBase dt ++ ['Z'] := rfl
  rw [hdata]
  have hstrip : stripWS (renderBase dt ++ ['Z']) = renderBase dt ++ ['Z'] := by
    refine stripWS_eq_self _ ?_ ?_
    · intro c hc
      rw [head?_renderBase_append dt] at hc
      cases hc
      exact digitChar_not_ws _ (by omega)
    · intro c hc
      rw [List.getLast?_concat] at hc
      cases hc
      decide
  have hmap : (renderBase dt ++ ['Z']).map (fun c => if c = ' ' then 'T' else c) =
      renderBase dt ++ ['Z'] := by
    refine map_space_eq_self _ ?_
    intro c hc
    rcases List.mem_append.mp hc with hc | hc
    · exact renderBase_no_space dt hv c hc
    · simp at hc
      subst hc
      decide
  have hlast : (renderBase dt ++ ['Z']).getLast? = some 'Z' := List.getLast?_concat _
  simp [hstrip, hmap, hlast, List.dropLast_concat]

/-! ### Round trips of `parse_iso` on its own output -/

theorem parse_iso_eq (ts : String) (l : List Char) (dt : PyDateTime)
    (hp : preprocess ts = some l) (hf : fromisoformat l = some dt) :
    parse_iso ts = normalizePy dt := by
  simp [parse_iso, hp, hf]

theorem normalizePy_none (dt : PyDateTime) (h : dt.tz = none) :
    normalizePy dt = some (String.mk (renderBase (truncMicro dt))) := by
  simp [normalizePy, h]

theorem normalizePy_some_some (dt : PyDateTime) (off : Int) (du : PyDateTime)
    (h : dt.tz = some off) (hu : toUTC dt off = some du) :
    normalizePy dt = some (String.mk (renderBase (truncMicro du) ++ ['Z'])) := by
  simp [normalizePy, h, hu]

theorem normalizePy_some_none (dt : PyDateTime) (off : Int)
    (h : dt.tz = some off) (hu : toUTC dt off = none) :
    normalizePy dt = none := by
  simp [normalizePy, h, hu]

theorem parse_iso_render_naive (dt : PyDateTime) (hv : Valid dt) :
    parse_iso (String.mk (renderBase dt)) = some (String.mk (renderBase dt)) := by
  rw [parse_iso_eq _ _ _ (preprocess_render_naive dt hv) (fromiso_render_naive dt hv)]
  rw [normalizePy_none _ rfl]
  rfl

theorem parse_iso_render_z (dt : PyDateTime) (hv : Valid dt) :
    parse_iso (String.mk (renderBase dt ++ ['Z'])) =
      some (String.mk (renderBase dt ++ ['Z'])) := by
  rw [parse_iso_eq _ _ _ (preprocess_render_z dt hv) (fromiso_render_offset dt hv)]
  have hvt : Valid (⟨dt.year, dt.month, dt.day, dt.hour, dt.minute, dt.second,
      0, some 0⟩ : PyDateTime) := hv
  rw [normalizePy_some_some _ 0 _ rfl (toUTC_zero _ hvt)]
  rfl

/-! ### Claims C4 and C5: the timestamp normalizer -/

/-- C4: timestamp normalization is idempotent: for every input string `x` on
which `parse_iso` succeeds with result `r`, `parse_iso` applied to `r` also
succeeds and returns `r` itself. -/
theorem c4_normalize_idempotent (x r : String) (h : parse_iso x = some r) :
    parse_iso r = some r := by
  unfold parse_iso at h
  rw [Option.bind_eq_some] at h
  obtain ⟨l, hp, h⟩ := h
  rw [Option.bind_eq_some] at h
  obtain ⟨dt, hf, hn⟩ := h
  have hval := fromiso_valid l dt hf
  cases htz : dt.tz with
  | none =>
    rw [normalizePy_none dt htz] at hn
    cases hn
    exact parse_iso_render_naive (truncMicro dt) hval.1
  | some off =>
    have hoff := hval.2 off htz
    cases hu : toUTC dt off with
    | none =>
      rw [normalizePy_some_none dt off htz hu] at hn
      cases hn
    | some du =>
      rw [normalizePy_some_some dt off du htz hu] at hn
      cases hn
      have hduv := toUTC_valid dt off du hval.1 hoff.1 hoff.2 hu
      exact parse_iso_render_z (truncMicro du) hduv.1

/-- Witness for C4: a concrete successful normalization, re-normalized. -/
theorem c4_normalize_idempotent_witness :
    parse_iso "2024-01-01T10:00:00" = some "2024-01-01T10:00:00" :=
  c4_normalize_idempotent "2024-01-01 10:00" "2024-01-01T10:00:00" (by decide)

/-- C5: every accepted input is rendered in a fixed form: with an explicit
offset (or the `Z` shorthand) the instant is converted to UTC
(`toUTC`), fractional seconds are zeroed (`truncMicro`), and the result is
the 20-character `YYYY-MM-DDTHH:MM:SS` form suffixed `Z`; without an offset
the fractional seconds are zeroed and the result is the 19-character
`YYYY-MM-DDTHH:MM:SS` form with no offset marker. -/
theorem c5_normalize_form (s r : String) (h : parse_iso s = some r) :
    ∃ l dt, preprocess s = some l ∧ fromisoformat l = some dt ∧
      ((∃ off du, dt.tz = some off ∧ toUTC dt off = some du ∧
          r = String.mk (renderBase (truncMicro du) ++ ['Z']) ∧
          r.length = 20 ∧ r.data.getLast? = some 'Z' ∧
          (truncMicro du).microsecond = 0) ∨
       (dt.tz = none ∧ r = String.mk (renderBase (truncMicro dt)) ∧
          r.length = 19 ∧ r.data.getLast? ≠ some 'Z' ∧
          (truncMicro dt).microsecond = 0)) := by
  unfold parse_iso at h
  rw [Option.bind_eq_some] at h
  obtain ⟨l, hp, h⟩ := h
  rw [Option.bind_eq_some] at h
  obtain ⟨dt, hf, hn⟩ := h
  have hval := fromiso_valid l dt hf
  refine ⟨l, dt, hp, hf, ?_⟩
  cases htz : dt.tz with
  | some off =>
    have hoff := hval.2 off htz
    cases hu : toUTC dt off with
    | none =>
      rw [normalizePy_some_none dt off htz hu] at hn
      cases hn
    | some du =>
      rw [normalizePy_some_some dt off du htz hu] at hn
      cases hn
      refine Or.inl ⟨off, du, rfl, hu, rfl, ?_, ?_, rfl⟩
      · show (renderBase (truncMicro du) ++ ['Z']).length = 20
        rw [List.length_append, renderBase_len]
        rfl
      · show (renderBase (truncMicro du) ++ ['Z']).getLast? = some 'Z'
        exact List.getLast?_concat _
  | none =>
    rw [normalizePy_none dt htz] at hn
    cases hn
    refine Or.inr ⟨rfl, rfl, ?_, ?_, rfl⟩
    · show (renderBase (truncMicro dt)).length = 19
      exact renderBase_len _
    · show (renderBase (truncMicro dt)).getLast? ≠ some 'Z'
      rw [getLast?_renderBase]
      intro hc
      exact digitChar_ne_Z _ (by omega) (Option.some.inj hc)

/-- Witness for C5: an offset-carrying input with fractional seconds is
normalized to the UTC `Z` form. -/
theorem c5_normalize_form_witness :
    ∃ l dt, preprocess "2024-01-01T10:00:00.5+05:30" = some l ∧
      fromisoformat l = some dt ∧
      ((∃ off du, dt.tz = some off ∧ toUTC dt off = some du ∧
          "2024-01-01T04:30:00Z" = String.mk (renderBase (truncMicro du) ++ ['Z']) ∧
          ("2024-01-01T04:30:00Z" : String).length = 20 ∧
          ("2024-01-01T04:30:00Z" : String).data.getLast? = some 'Z' ∧
          (truncMicro du).microsecond = 0) ∨
       (dt.tz = none ∧
          "2024-01-01T04:30:00Z" = String.mk (renderBase (truncMicro dt)) ∧
          ("2024-01-01T04:30:00Z" : String).length = 19 ∧
          ("2024-01-01T04:30:00Z" : String).data.getLast? ≠ some 'Z' ∧
          (truncMicro dt).microsecond = 0)) :=
  c5_normalize_form "2024-01-01T10:00:00.5+05:30" "2024-01-01T04:30:00Z" (by decide)

/-! ### Conflict detection -/

theorem strLt_iff (a b : String) : strLt a b = true ↔ a < b := by
  unfold strLt
  rw [decide_eq_true_eq]
  exact String.lt_iff_toList_lt.symm

theorem strLt_eq_false_iff (a b : String) : strLt a b = false ↔ b ≤ a := by
  unfold strLt
  rw [decide_eq_false_iff_not]
  constructor
  · intro h
    exact not_lt.mp (fun hlt => h (String.lt_iff_toList_lt.mp hlt))
  · intro h hlt
    exact absurd (String.lt_iff_toList_lt.mpr hlt) (not_lt.mpr h)

theorem WF_has (db : DB) (h : WF db) (e : EventRow) (hm : e ∈ db.events) :
    hasRoommate db e.roommate_id = true := by
  unfold WF at h
  rw [List.all_eq_true] at h
  simpa using h e hm

theorem mem_find_conflicts (db : DB) (a b : String) (x : Option Nat)
    (ev : EventRow) (hwf : WF db) :
    ev ∈ find_conflicts db a b x ↔
      ev ∈ db.events ∧ ev.start < a ∧ b < ev.«end» ∧ (∀ i, x = some i → ev.id ≠ i) := by
  unfold find_conflicts
  rw [List.mem_filter]
  constructor
  · rintro ⟨hm, hc⟩
    simp only [Bool.and_eq_true] at hc
    refine ⟨hm, (strLt_iff _ _).mp hc.1.1.2, (strLt_iff _ _).mp hc.1.2, ?_⟩
    intro i hi
    subst hi
    have h2 := hc.2
    simp at h2
    exact h2
  · rintro ⟨hm, h1, h2, h3⟩
    refine ⟨hm, ?_⟩
    simp only [Bool.and_eq_true]
    refine ⟨⟨⟨WF_has db hwf ev hm, (strLt_iff _ _).mpr h1⟩, (strLt_iff _ _).mpr h2⟩, ?_⟩
    cases x with
    | none => simp
    | some i => simp [h3 i rfl]

theorem create_event_eq (db : DB) (inp : CreateInput) (rid : Nat) (ns ne : String)
    (hrid : inp.roommate_id = some rid) (h0 : rid ≠ 0)
    (hhas : hasRoommate db rid = true)
    (hs : parse_iso_opt inp.start = some ns) (he : parse_iso_opt inp.«end» = some ne) :
    create_event db inp =
      if strLt ns ne = false then (.err "end must be after start", db)
      else if ¬ (find_conflicts db ne ns none).isEmpty ∧ inp.rejectOnConflict = true then
        (.conflict (find_conflicts db ne ns none), db)
      else
        (.ok ⟨db.nextEventId, rid, pstrip (pyOrStr inp.title "Interview"), ns, ne,
              pstrip (pyOrStr inp.location ""), pstrip (pyOrStr inp.notes "")⟩
             (find_conflicts db ne ns none),
         { db with
             events := db.events ++
               [⟨db.nextEventId, rid, pstrip (pyOrStr inp.title "Interview"), ns, ne,
                 pstrip (pyOrStr inp.location ""), pstrip (pyOrStr inp.notes "")⟩],
             nextEventId := db.nextEventId + 1 }) := by
  simp [create_event, hrid, h0, hhas, hs, he]

/-- C1: the conflict detector reports exactly the events overlapping the
candidate half-open interval.  Part 1: membership in `find_conflicts`, as
called with the candidate end first and the candidate start second, is
`s < ce AND e > cs` (plus the optional id exclusion), for any referentially
intact state.  Part 2: in particular, an event merely touching the candidate
at an endpoint is never reported.  Part 3: `create_event` produces its
conflict list by exactly that call on the normalized candidate interval.
Part 4: so does `update_event` on the effective interval of the updated row,
excluding the event itself. -/
theorem c1_overlap_rule :
    (∀ (db : DB) (cs ce : String) (x : Option Nat) (ev : EventRow), WF db →
      (ev ∈ find_conflicts db ce cs x ↔
        ev ∈ db.events ∧ ev.start < ce ∧ cs < ev.«end» ∧ ∀ i, x = some i → ev.id ≠ i))
    ∧ (∀ (db : DB) (cs ce : String) (x : Option Nat) (ev : EventRow), WF db →
        ev ∈ db.events → (ev.«end» = cs ∨ ev.start = ce) →
        ev ∉ find_conflicts db ce cs x)
    ∧ (∀ (db : DB) (inp : CreateInput) (rid : Nat) (ns ne : String)
        (res : EvResult) (db2 : DB),
        inp.roommate_id = some rid → rid ≠ 0 → hasRoommate db rid = true →
        parse_iso_opt inp.start = some ns → parse_iso_opt inp.«end» = some ne →
        create_event db inp = (res, db2) →
        ∀ c, (res = .conflict c ∨ ∃ r, res = .ok r c) →
          c = find_conflicts db ne ns none)
    ∧ (∀ (db : DB) (eid : Nat) (inp : UpdateInput) (r : EventRow)
        (c : List EventRow) (db2 : DB),
        update_event db eid inp = (.ok r c, db2) →
        c = find_conflicts db2 r.«end» r.start (some eid)) := by
  refine ⟨fun db cs ce x ev hwf => mem_find_conflicts db ce cs x ev hwf, ?_, ?_, ?_⟩
  · intro db cs ce x ev hwf hm hor hmem
    rw [mem_find_conflicts db ce cs x ev hwf] at hmem
    obtain ⟨-, h1, h2, -⟩ := hmem
    rcases hor with hor | hor
    · exact lt_irrefl cs (hor ▸ h2)
    · exact lt_irrefl ce (hor ▸ h1)
  · intro db inp rid ns ne res db2 hrid h0 hhas hs he hcr c hc
    rw [create_event_eq db inp rid ns ne hrid h0 hhas hs he] at hcr
    split_ifs at hcr
    · cases hcr
      rcases hc with hc | ⟨r, hc⟩ <;> cases hc
    · cases hcr
      rcases hc with hc | ⟨r, hc⟩ <;> cases hc
      rfl
    · cases hcr
      rcases hc with hc | ⟨r, hc⟩ <;> cases hc
      rfl
  · intro db eid inp r c db2 h
    unfold update_event at h
    split at h
    · cases h
    · split at h
      · cases h
      · split at h
        · cases h
        · split at h
          · cases h
          · split at h
            · cases h
            · split at h
              · cases h
              · dsimp only at h
                split at h
                · cases h
                · cases h
                  rfl

/-- Witness for C1: the first part instantiated at a one-event state whose
event `[10:00,11:00)` merely touches the candidate `[11:00,12:00)`. -/
theorem c1_overlap_rule_witness :
    (⟨1, 1, "Interview", "2024-01-01T10:00:00", "2024-01-01T11:00:00", "", ""⟩ : EventRow) ∉
      find_conflicts
        ⟨[⟨1, "Ganesh", "#EF6C33"⟩],
         [⟨1, 1, "Interview", "2024-01-01T10:00:00", "2024-01-01T11:00:00", "", ""⟩], 2, 2⟩
        "2024-01-01T12:00:00" "2024-01-01T11:00:00" none :=
  c1_overlap_rule.2.1
    ⟨[⟨1, "Ganesh", "#EF6C33"⟩],
     [⟨1, 1, "Interview", "2024-01-01T10:00:00", "2024-01-01T11:00:00", "", ""⟩], 2, 2⟩
    "2024-01-01T11:00:00" "2024-01-01T12:00:00" none
    ⟨1, 1, "Interview", "2024-01-01T10:00:00", "2024-01-01T11:00:00", "", ""⟩
    (by decide) (by decide) (Or.inl rfl)

/-- C2 fails on the code: `find_conflicts` has no `ORDER BY`, so the
conflict list comes back in stored (insertion) order; here an overlapping
pair is returned with the later-starting event first. -/
theorem c2_counterexample :
    ¬ List.Sorted (fun e1 e2 : EventRow => e1.start ≤ e2.start)
      (find_conflicts
        ⟨[⟨1, "Ganesh", "#EF6C33"⟩],
         [⟨1, 1, "Interview", "2024-01-01T12:00:00", "2024-01-01T13:00:00", "", ""⟩,
          ⟨2, 1, "Interview", "2024-01-01T10:00:00", "2024-01-01T11:00:00", "", ""⟩],
         2, 3⟩
        "2024-01-01T12:30:00" "2024-01-01T10:30:00" none) := by
  intro hs
  have heq : find_conflicts
      ⟨[⟨1, "Ganesh", "#EF6C33"⟩],
       [⟨1, 1, "Interview", "2024-01-01T12:00:00", "2024-01-01T13:00:00", "", ""⟩,
        ⟨2, 1, "Interview", "2024-01-01T10:00:00", "2024-01-01T11:00:00", "", ""⟩],
       2, 3⟩
      "2024-01-01T12:30:00" "2024-01-01T10:30:00" none =
      [⟨1, 1, "Interview", "2024-01-01T12:00:00", "2024-01-01T13:00:00", "", ""⟩,
       ⟨2, 1, "Interview", "2024-01-01T10:00:00", "2024-01-01T11:00:00", "", ""⟩] := by
    decide
  rw [heq, List.sorted_cons] at hs
  have hrel := hs.1 ⟨2, 1, "Interview", "2024-01-01T10:00:00", "2024-01-01T11:00:00", "", ""⟩
    (by simp)
  exact absurd ((strLt_iff _ _).mp (by decide)) (not_lt.mpr hrel)

/-- C2 amended: the conflict list contains exactly the overlapping events,
but in stored table order (a sublist of the events table), not sorted by
start. -/
theorem c2_amended_storage_order (db : DB) (a b : String) (x : Option Nat)
    (hwf : WF db) :
    (find_conflicts db a b x).Sublist db.events ∧
    ∀ ev, ev ∈ find_conflicts db a b x ↔
      ev ∈ db.events ∧ ev.start < a ∧ b < ev.«end» ∧ (∀ i, x = some i → ev.id ≠ i) :=
  ⟨List.filter_sublist _, fun ev => mem_find_conflicts db a b x ev hwf⟩

/-- Witness for the amended C2 at a two-event state. -/
theorem c2_amended_storage_order_witness :
    (find_conflicts
        ⟨[⟨1, "Ganesh", "#EF6C33"⟩],
         [⟨1, 1, "Interview", "2024-01-01T12:00:00", "2024-01-01T13:00:00", "", ""⟩,
          ⟨2, 1, "Interview", "2024-01-01T10:00:00", "2024-01-01T11:00:00", "", ""⟩],
         2, 3⟩
        "2024-01-01T12:30:00" "2024-01-01T10:30:00" none).Sublist
      [⟨1, 1, "Interview", "2024-01-01T12:00:00", "2024-01-01T13:00:00", "", ""⟩,
       ⟨2, 1, "Interview", "2024-01-01T10:00:00", "2024-01-01T11:00:00", "", ""⟩] :=
  (c2_amended_storage_order
    ⟨[⟨1, "Ganesh", "#EF6C33"⟩],
     [⟨1, 1, "Interview", "2024-01-01T12:00:00", "2024-01-01T13:00:00", "", ""⟩,
      ⟨2, 1, "Interview", "2024-01-01T10:00:00", "2024-01-01T11:00:00", "", ""⟩],
     2, 3⟩
    "2024-01-01T12:30:00" "2024-01-01T10:30:00" none (by decide)).1

/-- C6: once roommate and timestamps validate, a normalized start at or
after the normalized end (including equality) makes `create_event` fail with
the `InvalidInterval` error, for any `rejectOnConflict` value, leaving the
state unchanged (so no conflict check result is produced and nothing is
persisted). -/
theorem c6_invalid_interval (db : DB) (inp : CreateInput) (rid : Nat)
    (ns ne : String)
    (hrid : inp.roommate_id = some rid) (h0 : rid ≠ 0)
    (hhas : hasRoommate db rid = true)
    (hs : parse_iso_opt inp.start = some ns) (he : parse_iso_opt inp.«end» = some ne)
    (hle : ne ≤ ns) :
    create_event db inp = (.err "end must be after start", db) := by
  rw [create_event_eq db inp rid ns ne hrid h0 hhas hs he,
      if_pos ((strLt_eq_false_iff ns ne).mpr hle)]

/-- Witness for C6: `start == end` with `rejectOnConflict = true`. -/
theorem c6_invalid_interval_witness :
    create_event ⟨[⟨1, "Ganesh", "#EF6C33"⟩], [], 2, 1⟩
      ⟨some 1, none, some "2024-01-01T10:00", some "2024-01-01T10:00", none, none, true⟩
      = (.err "end must be after start", ⟨[⟨1, "Ganesh", "#EF6C33"⟩], [], 2, 1⟩) :=
  c6_invalid_interval ⟨[⟨1, "Ganesh", "#EF6C33"⟩], [], 2, 1⟩
    ⟨some 1, none, some "2024-01-01T10:00", some "2024-01-01T10:00", none, none, true⟩
    1 "2024-01-01T10:00:00" "2024-01-01T10:00:00"
    rfl (by decide) (by decide) (by decide) (by decide) (le_refl _)

/-- C7: for a fully validated create with a proper interval, a non-empty
conflict list together with `rejectOnConflict = true` yields the
`ConflictDetected` failure carrying that list and an unchanged state;
otherwise the event is persisted and returned together with the same
conflict list. -/
theorem c7_conflict_policy (db : DB) (inp : CreateInput) (rid : Nat)
    (ns ne : String)
    (hrid : inp.roommate_id = some rid) (h0 : rid ≠ 0)
    (hhas : hasRoommate db rid = true)
    (hs : parse_iso_opt inp.start = some ns) (he : parse_iso_opt inp.«end» = some ne)
    (hlt : ¬ ne ≤ ns) :
    (find_conflicts db ne ns none ≠ [] ∧ inp.rejectOnConflict = true →
      create_event db inp = (.conflict (find_conflicts db ne ns none), db))
    ∧ ((find_conflicts db ne ns none = [] ∨ inp.rejectOnConflict = false) →
      create_event db inp =
        (.ok ⟨db.nextEventId, rid, pstrip (pyOrStr inp.title "Interview"), ns, ne,
              pstrip (pyOrStr inp.location ""), pstrip (pyOrStr inp.notes "")⟩
             (find_conflicts db ne ns none),
         { db with
             events := db.events ++
               [⟨db.nextEventId, rid, pstrip (pyOrStr inp.title "Interview"), ns, ne,
                 pstrip (pyOrStr inp.location ""), pstrip (pyOrStr inp.notes "")⟩],
             nextEventId := db.nextEventId + 1 })) := by
  have hlt2 : strLt ns ne = true := by
    cases hb : strLt ns ne
    · exact absurd ((strLt_eq_false_iff ns ne).mp hb) hlt
    · rfl
  rw [create_event_eq db inp rid ns ne hrid h0 hhas hs he, if_neg (by simp [hlt2])]
  constructor
  · rintro ⟨hne, hrj⟩
    rw [if_pos ⟨fun hI => hne (List.isEmpty_iff.mp hI), hrj⟩]
  · intro h
    rw [if_neg ?_]
    rintro ⟨hne, hrj⟩
    rcases h with h | h
    · exact hne (by rw [h]; rfl)
    · rw [h] at hrj
      cases hrj

/-- Witness for C7: a candidate overlapping one stored event, with the flag
set, is rejected with that conflict. -/
theorem c7_conflict_policy_witness :
    create_event
      ⟨[⟨1, "Ganesh", "#EF6C33"⟩],
       [⟨1, 1, "Interview", "2024-01-01T10:00:00", "2024-01-01T11:00:00", "", ""⟩], 2, 2⟩
      ⟨some 1, none, some "2024-01-01T10:30", some "2024-01-01T11:30", none, none, true⟩
      = (.conflict
          (find_conflicts
            ⟨[⟨1, "Ganesh", "#EF6C33"⟩],
             [⟨1, 1, "Interview", "2024-01-01T10:00:00", "2024-01-01T11:00:00", "", ""⟩], 2, 2⟩
            "2024-01-01T11:30:00" "2024-01-01T10:30:00" none),
         ⟨[⟨1, "Ganesh", "#EF6C33"⟩],
          [⟨1, 1, "Interview", "2024-01-01T10:00:00", "2024-01-01T11:00:00", "", ""⟩], 2, 2⟩) :=
  (c7_conflict_policy
    ⟨[⟨1, "Ganesh", "#EF6C33"⟩],
     [⟨1, 1, "Interview", "2024-01-01T10:00:00", "2024-01-01T11:00:00", "", ""⟩], 2, 2⟩
    ⟨some 1, none, some "2024-01-01T10:30", some "2024-01-01T11:30", none, none, true⟩
    1 "2024-01-01T10:30:00" "2024-01-01T11:30:00"
    rfl (by decide) (by decide) (by decide) (by decide)
    (by
      intro hle
      have h1 := (strLt_eq_false_iff "2024-01-01T10:30:00" "2024-01-01T11:30:00").mpr hle
      have h2 : strLt "2024-01-01T10:30:00" "2024-01-01T11:30:00" = true := by decide
      rw [h1] at h2
      cases h2)).1
    ⟨by decide, rfl⟩

/-! ### Partial update of events -/

theorem update_event_eq (db : DB) (eid : Nat) (inp : UpdateInput)
    (ex : EventRow) (rmNew : Option Nat) (startNew endNew : Option String)
    (hex : db.events.any (fun e => e.id = eid) = true)
    (hrm : rmStage db inp.roommate_id = .ok rmNew)
    (hst : tsStage inp.start "invalid start" = .ok startNew)
    (hen : tsStage inp.«end» "invalid end" = .ok endNew)
    (hnf : ¬ (inp.roommate_id = none ∧ inp.title = none ∧ inp.start = none ∧
              inp.«end» = none ∧ inp.location = none ∧ inp.notes = none))
    (hfind : db.events.find? (fun e => e.id = eid) = some ex) :
    update_event db eid inp =
      if strLt (startNew.getD ex.start) (endNew.getD ex.«end») = false then
        (.err "end must be after start", db)
      else
        (.ok (applyUpdate inp ex rmNew startNew endNew)
           (find_conflicts (updCommit db eid (applyUpdate inp ex rmNew startNew endNew))
             (endNew.getD ex.«end») (startNew.getD ex.start) (some eid)),
         updCommit db eid (applyUpdate inp ex rmNew startNew endNew)) := by
  simp [update_event, hex, hrm, hst, hen, hnf, hfind]

/-- C8: a partial event update computes its effective interval from the
staged (present, normalized) start and end with the persisted values as
fallback; it is rejected with the `InvalidInterval` error exactly when the
effective start is at or after the effective end, persisting nothing; when
the effective interval is proper, the staged fields are committed and the
returned row carries the effective interval. -/
theorem c8_update_effective_interval (db : DB) (eid : Nat) (inp : UpdateInput)
    (ex : EventRow) (rmNew : Option Nat) (startNew endNew : Option String)
    (hex : db.events.any (fun e => e.id = eid) = true)
    (hrm : rmStage db inp.roommate_id = .ok rmNew)
    (hst : tsStage inp.start "invalid start" = .ok startNew)
    (hen : tsStage inp.«end» "invalid end" = .ok endNew)
    (hnf : ¬ (inp.roommate_id = none ∧ inp.title = none ∧ inp.start = none ∧
              inp.«end» = none ∧ inp.location = none ∧ inp.notes = none))
    (hfind : db.events.find? (fun e => e.id = eid) = some ex) :
    (endNew.getD ex.«end» ≤ startNew.getD ex.start →
       update_event db eid inp = (.err "end must be after start", db))
    ∧ (startNew.getD ex.start < endNew.getD ex.«end» →
       update_event db eid inp =
         (.ok (applyUpdate inp ex rmNew startNew endNew)
            (find_conflicts (updCommit db eid (applyUpdate inp ex rmNew startNew endNew))
              (endNew.getD ex.«end») (startNew.getD ex.start) (some eid)),
          updCommit db eid (applyUpdate inp ex rmNew startNew endNew))) := by
  rw [update_event_eq db eid inp ex rmNew startNew endNew hex hrm hst hen hnf hfind]
  constructor
  · intro hle
    rw [if_pos ((strLt_eq_false_iff _ _).mpr hle)]
  · intro hlt
    have ht : strLt (startNew.getD ex.start) (endNew.getD ex.«end») = true :=
      (strLt_iff _ _).mpr hlt
    rw [if_neg (by simp [ht])]

/-- Witness for C8: staging only a new start equal to a time at or past the
persisted end is rejected and leaves the state unchanged. -/
theorem c8_update_effective_interval_witness :
    update_event
      ⟨[⟨1, "Ganesh", "#EF6C33"⟩],
       [⟨1, 1, "Interview", "2024-01-01T10:00:00", "2024-01-01T11:00:00", "", ""⟩], 2, 2⟩
      1 ⟨none, none, some (some "2024-01-01T12:00"), none, none, none⟩
      = (.err "end must be after start",
         ⟨[⟨1, "Ganesh", "#EF6C33"⟩],
          [⟨1, 1, "Interview", "2024-01-01T10:00:00", "2024-01-01T11:00:00", "", ""⟩], 2, 2⟩) :=
  (c8_update_effective_interval
    ⟨[⟨1, "Ganesh", "#EF6C33"⟩],
     [⟨1, 1, "Interview", "2024-01-01T10:00:00", "2024-01-01T11:00:00", "", ""⟩], 2, 2⟩
    1 ⟨none, none, some (some "2024-01-01T12:00"), none, none, none⟩
    ⟨1, 1, "Interview", "2024-01-01T10:00:00", "2024-01-01T11:00:00", "", ""⟩
    none (some "2024-01-01T12:00:00") none
    (by decide) rfl rfl rfl (by simp) (by decide)).1
    ((strLt_eq_false_iff _ _).mp (by decide))

/-! ### Claim C9: list/read with range filter -/

/-- C9: the list query returns exactly the stored events overlapping the
half-open query range (an absent bound constrains nothing; a given start
bound `s` keeps events with `e > s`, a given end bound `t` keeps events with
`s < t`), ordered by event start ascending; and the `GET /api/events`
handler feeds the independently normalized bounds to exactly this query. -/
theorem c9_query_range (db : DB) (os oe : Option String) (hwf : WF db)
    (hs : os ≠ some "") (he : oe ≠ some "") :
    (∀ ev, ev ∈ query_events db os oe ↔
        ev ∈ db.events ∧ (∀ s, os = some s → s < ev.«end») ∧
        (∀ t, oe = some t → ev.start < t))
    ∧ List.Sorted (fun e1 e2 : EventRow => e1.start ≤ e2.start) (query_events db os oe)
    ∧ (∀ rs re ps pe, parseBound rs = some ps → parseBound re = some pe →
        list_events db rs re = .ok (query_events db ps pe)) := by
  refine ⟨?_, ?_, ?_⟩
  · intro ev
    unfold query_events
    rw [(List.perm_insertionSort _ _).mem_iff, List.mem_filter]
    constructor
    · rintro ⟨hm, hc⟩
      simp only [Bool.and_eq_true] at hc
      obtain ⟨⟨hr, h1⟩, h2⟩ := hc
      refine ⟨hm, ?_, ?_⟩
      · intro s hos
        subst hos
        have hs2 : s ≠ "" := fun hh => hs (by rw [hh])
        have h1b : (if s = "" then true else strLt s ev.«end») = true := h1
        rw [if_neg hs2] at h1b
        exact (strLt_iff _ _).mp h1b
      · intro t hoe
        subst hoe
        have he2 : t ≠ "" := fun hh => he (by rw [hh])
        have h2b : (if t = "" then true else strLt ev.start t) = true := h2
        rw [if_neg he2] at h2b
        exact (strLt_iff _ _).mp h2b
    · rintro ⟨hm, hstart, hend⟩
      refine ⟨hm, ?_⟩
      simp only [Bool.and_eq_true]
      refine ⟨⟨WF_has db hwf ev hm, ?_⟩, ?_⟩
      · cases os with
        | none => rfl
        | some s =>
          have hs2 : s ≠ "" := fun hh => hs (by rw [hh])
          show (if s = "" then true else strLt s ev.«end») = true
          rw [if_neg hs2]
          exact (strLt_iff _ _).mpr (hstart s rfl)
      · cases oe with
        | none => rfl
        | some t =>
          have he2 : t ≠ "" := fun hh => he (by rw [hh])
          show (if t = "" then true else strLt ev.start t) = true
          rw [if_neg he2]
          exact (strLt_iff _ _).mpr (hend t rfl)
  · exact List.sorted_insertionSort _ _
  · intro rs re ps pe h1 h2
    simp [list_events, h1, h2]

/-- Witness for C9 at a one-event state with a start bound overlapping it. -/
theorem c9_query_range_witness :
    (∀ ev, ev ∈ query_events
        ⟨[⟨1, "Ganesh", "#EF6C33"⟩],
         [⟨1, 1, "Interview", "2024-01-01T10:00:00", "2024-01-01T11:00:00", "", ""⟩], 2, 2⟩
        (some "2024-01-01T10:30:00") none ↔
        ev ∈ (⟨[⟨1, "Ganesh", "#EF6C33"⟩],
         [⟨1, 1, "Interview", "2024-01-01T10:00:00", "2024-01-01T11:00:00", "", ""⟩],
         2, 2⟩ : DB).events ∧
        (∀ s, (some "2024-01-01T10:30:00" : Option String) = some s → s < ev.«end») ∧
        (∀ t, (none : Option String) = some t → ev.start < t))
    ∧ List.Sorted (fun e1 e2 : EventRow => e1.start ≤ e2.start)
        (query_events
          ⟨[⟨1, "Ganesh", "#EF6C33"⟩],
           [⟨1, 1, "Interview", "2024-01-01T10:00:00", "2024-01-01T11:00:00", "", ""⟩], 2, 2⟩
          (some "2024-01-01T10:30:00") none)
    ∧ (∀ rs re ps pe, parseBound rs = some ps → parseBound re = some pe →
        list_events
          ⟨[⟨1, "Ganesh", "#EF6C33"⟩],
           [⟨1, 1, "Interview", "2024-01-01T10:00:00", "2024-01-01T11:00:00", "", ""⟩], 2, 2⟩
          rs re = .ok (query_events
            ⟨[⟨1, "Ganesh", "#EF6C33"⟩],
             [⟨1, 1, "Interview", "2024-01-01T10:00:00", "2024-01-01T11:00:00", "", ""⟩], 2, 2⟩
            ps pe)) :=
  c9_query_range
    ⟨[⟨1, "Ganesh", "#EF6C33"⟩],
     [⟨1, 1, "Interview", "2024-01-01T10:00:00", "2024-01-01T11:00:00", "", ""⟩], 2, 2⟩
    (some "2024-01-01T10:30:00") none (by decide) (by decide) (by decide)

/-! ### Claim C10: the title default -/

/-- C10 fails on the code: a whitespace-only title is truthy in Python, so
`(title or "Interview").strip()` keeps it and strips it to the EMPTY string
rather than the default `"Interview"`. -/
theorem c10_counterexample :
    (create_event ⟨[⟨1, "Ganesh", "#EF6C33"⟩], [], 2, 1⟩
        ⟨some 1, some "   ", some "2024-01-01T10:00", some "2024-01-01T11:00",
         none, none, false⟩).1
      = .ok ⟨1, 1, "", "2024-01-01T10:00:00", "2024-01-01T11:00:00", "", ""⟩ []
    ∧ ("" : String) ≠ "Interview" := by
  decide

/-- C10 amended: the stored title is `(title or "Interview").strip()` — the
default applies when the field is absent, null, or the empty string; a
non-empty (possibly whitespace-only) title is merely stripped; an absent
title in an update leaves the stored title unchanged, a null one resets it
to the default. -/
theorem c10_amended_title_default :
    (∀ (db : DB) (inp : CreateInput) (row : EventRow) (c : List EventRow) (db2 : DB),
       create_event db inp = (.ok row c, db2) →
       row.title = pstrip (pyOrStr inp.title "Interview") ∧
       ((inp.title = none ∨ inp.title = some "") → row.title = "Interview"))
    ∧ (∀ (db : DB) (eid : Nat) (inp : UpdateInput) (row : EventRow)
        (c : List EventRow) (db2 : DB) (ex : EventRow),
        db.events.find? (fun e => e.id = eid) = some ex →
        update_event db eid inp = (.ok row c, db2) →
        (inp.title = none → row.title = ex.title) ∧
        (∀ v, inp.title = some v → row.title = pstrip (pyOrStr v "Interview")) ∧
        ((inp.title = some none ∨ inp.title = some (some "")) →
          row.title = "Interview")) := by
  constructor
  · intro db inp row c db2 h
    unfold create_event at h
    dsimp only at h
    split at h
    · cases h
    · split at h
      · cases h
      · split at h
        · cases h
        · split at h
          · split at h
            · cases h
            · split at h
              · cases h
              · cases h
                refine ⟨rfl, ?_⟩
                intro hcase
                rcases hcase with hh | hh <;> rw [hh]
                · exact (by decide : pstrip (pyOrStr none "Interview") = "Interview")
                · exact (by decide : pstrip (pyOrStr (some "") "Interview") = "Interview")
          · cases h
  · intro db eid inp row c db2 ex hfind h
    unfold update_event at h
    split at h
    · cases h
    · split at h
      · cases h
      · split at h
        · cases h
        · split at h
          · cases h
          · split at h
            · cases h
            · split at h
              · cases h
              · rename_i ex2 heq
                rw [hfind] at heq
                cases heq
                dsimp only at h
                split at h
                · cases h
                · cases h
                  refine ⟨?_, ?_, ?_⟩
                  · intro hnone
                    show (applyUpdate inp ex _ _ _).title = ex.title
                    simp [applyUpdate, hnone]
                  · intro v hv
                    show (applyUpdate inp ex _ _ _).title = pstrip (pyOrStr v "Interview")
                    simp [applyUpdate, hv]
                  · intro hcase
                    show (applyUpdate inp ex _ _ _).title = "Interview"
                    rcases hcase with hh | hh <;> simp [applyUpdate, hh] <;> decide

/-- Witness for the amended C10: an empty-string title on create becomes
`"Interview"`. -/
theorem c10_amended_title_default_witness :
    (⟨1, 1, "Interview", "2024-01-01T10:00:00", "2024-01-01T11:00:00", "", ""⟩ : EventRow).title
        = pstrip (pyOrStr (some "") "Interview")
    ∧ ((some "" = (none : Option String) ∨ (some "" : Option String) = some "") →
       (⟨1, 1, "Interview", "2024-01-01T10:00:00", "2024-01-01T11:00:00", "", ""⟩ : EventRow).title
         = "Interview") :=
  c10_amended_title_default.1 ⟨[⟨1, "Ganesh", "#EF6C33"⟩], [], 2, 1⟩
    ⟨some 1, some "", some "2024-01-01T10:00", some "2024-01-01T11:00", none, none, false⟩
    ⟨1, 1, "Interview", "2024-01-01T10:00:00", "2024-01-01T11:00:00", "", ""⟩ []
    ⟨[⟨1, "Ganesh", "#EF6C33"⟩],
     [⟨1, 1, "Interview", "2024-01-01T10:00:00", "2024-01-01T11:00:00", "", ""⟩], 2, 2⟩
    (by decide)

/-! ### Claim C3: atomicity with respect to errors -/

theorem any_map_id_preserved (l : List Roommate) (f : Roommate → Roommate)
    (hf : ∀ r, (f r).id = r.id) (rid : Nat) :
    (l.map f).any (fun r => r.id = rid) = l.any (fun r => r.id = rid) := by
  induction l with
  | nil => rfl
  | cons a t ih => simp [hf a, ih]

theorem setRmName_any (db : DB) (rid : Nat) (n : String) (rid2 : Nat) :
    (setRmName db rid n).roommates.any (fun r => r.id = rid2)
      = db.roommates.any (fun r => r.id = rid2) := by
  unfold setRmName
  exact any_map_id_preserved _ _ (fun r => by split <;> rfl) rid2

theorem setRmColor_any (db : DB) (rid : Nat) (c : String) (rid2 : Nat) :
    (setRmColor db rid c).roommates.any (fun r => r.id = rid2)
      = db.roommates.any (fun r => r.id = rid2) := by
  unfold setRmColor
  exact any_map_id_preserved _ _ (fun r => by split <;> rfl) rid2

theorem nameStage_ok (db : DB) (rid : Nat) (nm : Option String) (db1 : DB)
    (h : nameStage db rid nm = .ok db1) :
    db1 = db ∨ ∃ raw, nm = some raw ∧ pstrip raw ≠ "" ∧
      db1 = setRmName db rid (pstrip raw) := by
  unfold nameStage at h
  split at h
  · cases h
    exact Or.inl rfl
  · rename_i raw
    dsimp only at h
    split at h
    · cases h
    · split at h
      · cases h
      · rename_i h1 h2
        cases h
        exact Or.inr ⟨raw, rfl, h1, rfl⟩

theorem rmFinish_err (db1 : DB) (rid : Nat) (m : String) (db2 : DB)
    (hany : db1.roommates.any (fun r => r.id = rid) = true)
    (h : rmFinish db1 rid = (.err m, db2)) : False := by
  unfold rmFinish at h
  split at h
  · cases h
  · rename_i hnone
    rw [List.any_eq_true] at hany
    obtain ⟨r, hr, hp⟩ := hany
    have hsome : (db1.roommates.find? (fun r => r.id = rid)).isSome := by
      rw [List.find?_isSome]
      exact ⟨r, hr, hp⟩
    rw [hnone] at hsome
    cases hsome

/-- C3 fails on the code: a roommate update carrying a valid new name and an
empty color rejects the color, but the new name is already committed — the
persisted state changed although an error is returned. -/
theorem c3_counterexample :
    update_roommate ⟨[⟨1, "Ganesh", "#EF6C33"⟩], [], 2, 1⟩ 1 (some "NewName") (some "")
      = (.err "color cannot be empty", ⟨[⟨1, "NewName", "#EF6C33"⟩], [], 2, 1⟩)
    ∧ (⟨[⟨1, "NewName", "#EF6C33"⟩], [], 2, 1⟩ : DB)
        ≠ ⟨[⟨1, "Ganesh", "#EF6C33"⟩], [], 2, 1⟩ := by
  decide

/-- C3 amended: every event mutation (create, update, delete) and the
roommate add are atomic with respect to errors — an error response leaves
the state unchanged — and so is the roommate update EXCEPT on the path the
counterexample exhibits: when a valid (non-empty, non-duplicate) name was
supplied together with a rejected empty color, the error response leaves
the name change committed. -/
theorem c3_amended_atomicity :
    (∀ (db : DB) (inp : CreateInput) (m : String) (db2 : DB),
       create_event db inp = (.err m, db2) → db2 = db)
    ∧ (∀ (db : DB) (inp : CreateInput) (c : List EventRow) (db2 : DB),
       create_event db inp = (.conflict c, db2) → db2 = db)
    ∧ (∀ (db : DB) (eid : Nat) (inp : UpdateInput) (m : String) (db2 : DB),
       update_event db eid inp = (.err m, db2) → db2 = db)
    ∧ (∀ (db : DB) (eid : Nat) (m : String) (db2 : DB),
       delete_event db eid = (.error m, db2) → db2 = db)
    ∧ (∀ (db : DB) (n c : Option String) (m : String) (db2 : DB),
       add_roommate db n c = (.err m, db2) → db2 = db)
    ∧ (∀ (db : DB) (rid : Nat) (nm col : Option String) (m : String) (db2 : DB),
       update_roommate db rid nm col = (.err m, db2) →
       db2 = db ∨ (m = "color cannot be empty" ∧ ∃ raw, nm = some raw ∧
         pstrip raw ≠ "" ∧ db2 = setRmName db rid (pstrip raw))) := by
  refine ⟨?_, ?_, ?_, ?_, ?_, ?_⟩
  · intro db inp m db2 h
    unfold create_event at h
    dsimp only at h
    split at h
    · cases h
      rfl
    · split at h
      · cases h
        rfl
      · split at h
        · cases h
          rfl
        · split at h
          · split at h
            · cases h
              rfl
            · split at h
              · cases h
              · cases h
          · cases h
            rfl
  · intro db inp c db2 h
    unfold create_event at h
    dsimp only at h
    split at h
    · cases h
    · split at h
      · cases h
      · split at h
        · cases h
        · split at h
          · split at h
            · cases h
            · split at h
              · cases h
                rfl
              · cases h
          · cases h
  · intro db eid inp m db2 h
    unfold update_event at h
    split at h
    · cases h
      rfl
    · split at h
      · cases h
        rfl
      · split at h
        · cases h
          rfl
        · split at h
          · cases h
            rfl
          · split at h
            · cases h
              rfl
            · split at h
              · cases h
                rfl
              · dsimp only at h
                split at h
                · cases h
                  rfl
                · cases h
  · intro db eid m db2 h
    unfold delete_event at h
    dsimp only at h
    split at h
    · cases h
    · rename_i hany0
      cases h
      have hall : db.events.filter (fun e => decide (e.id ≠ eid)) = db.events := by
        apply List.filter_eq_self.mpr
        intro a ha
        have hfalse : db.events.any (fun e => e.id = eid) = false := by
          cases hb : db.events.any (fun e => e.id = eid)
          · rfl
          · exact absurd hb hany0
        rw [List.any_eq_false] at hfalse
        have h2 := hfalse a ha
        simpa using h2
      rw [hall]
  · intro db n c m db2 h
    unfold add_roommate at h
    dsimp only at h
    split at h
    · cases h
      rfl
    · split at h
      · cases h
        rfl
      · cases h
  · intro db rid nm col m db2 h
    unfold update_roommate at h
    split at h
    · cases h
      exact Or.inl rfl
    · rename_i hany0
      have hany : db.roommates.any (fun r => r.id = rid) = true := by
        cases hb : db.roommates.any (fun r => r.id = rid)
        · exact absurd hb hany0
        · rfl
      split at h
      · cases h
        exact Or.inl rfl
      · rename_i db1 hns
        have hdb1 := nameStage_ok db rid nm db1 hns
        have hany1 : db1.roommates.any (fun r => r.id = rid) = true := by
          rcases hdb1 with rfl | ⟨raw, -, -, rfl⟩
          · exact hany
          · rw [setRmName_any]
            exact hany
        split at h
        · exact (rmFinish_err db1 rid m db2 hany1 h).elim
        · rename_i raw2
          dsimp only at h
          split at h
          · cases h
            rcases hdb1 with rfl | ⟨raw, hraw, hne, rfl⟩
            · exact Or.inl rfl
            · exact Or.inr ⟨rfl, raw, hraw, hne, rfl⟩
          · have hany2 : (setRmColor db1 rid (pstrip raw2)).roommates.any
                (fun r => r.id = rid) = true := by
              rw [setRmColor_any]
              exact hany1
            exact (rmFinish_err _ rid m db2 hany2 h).elim

/-- Witness for the amended C3: an event update rejected for an invalid
interval leaves the state unchanged. -/
theorem c3_amended_atomicity_witness :
    (⟨[⟨1, "Ganesh", "#EF6C33"⟩],
      [⟨1, 1, "Interview", "2024-01-01T10:00:00", "2024-01-01T11:00:00", "", ""⟩], 2, 2⟩ : DB)
      = ⟨[⟨1, "Ganesh", "#EF6C33"⟩],
         [⟨1, 1, "Interview", "2024-01-01T10:00:00", "2024-01-01T11:00:00", "", ""⟩], 2, 2⟩ :=
  c3_amended_atomicity.2.2.1
    ⟨[⟨1, "Ganesh", "#EF6C33"⟩],
     [⟨1, 1, "Interview", "2024-01-01T10:00:00", "2024-01-01T11:00:00", "", ""⟩], 2, 2⟩
    1 ⟨none, none, some (some "2024-01-01T12:00"), none, none, none⟩
    "end must be after start"
    ⟨[⟨1, "Ganesh", "#EF6C33"⟩],
     [⟨1, 1, "Interview", "2024-01-01T10:00:00", "2024-01-01T11:00:00", "", ""⟩], 2, 2⟩
    (by decide)

end RoomieSched
